import Mathlib

/-!
Shallow embedding of the marksim core (order book, matching engine, time
engine, candle stream, trade notification) together with proofs that settle
the spec claims C1 to C10.

Conventions of the embedding:
* Python Decimal values are modelled as integers: every price and size in
  the claims is an integral decimal, and on integral decimals the
  operations the embedded code performs (add, sub, min, max, comparison,
  equality) are exactly the integer ones. The one true division in scope,
  the halving inside mid_price, is modelled exactly as a rational, so no
  rounding is introduced anywhere.
* SortedDict is modelled as an association list sorted ascending by key;
  dict is modelled as an association list with replace-on-insert semantics.
* Functions that raise in Python return Option; None results model raises.
* uuid trade identifiers are modelled by a fixed placeholder string since
  no claim depends on them.
-/

namespace Marksim

/-! ## Types (src/marksim/core/types.py) -/

inductive Side where
  | BUY
  | SELL
deriving DecidableEq

inductive OrderType where
  | MARKET
  | LIMIT
  | STOP_LOSS
  | STOP_LIMIT
deriving DecidableEq

inductive OrderStatus where
  | PENDING
  | OPEN
  | PARTIALLY_FILLED
  | FILLED
  | CANCELLED
  | REJECTED
deriving DecidableEq

inductive TimeInForce where
  | GTC
  | IOC
  | FOK
  | DAY
deriving DecidableEq

structure Order where
  order_id : String
  agent_id : String
  side : Side
  order_type : OrderType
  size : ℤ
  price : Option ℤ
  time_in_force : TimeInForce
  timestamp : Int
  status : OrderStatus
  filled_size : ℤ
deriving DecidableEq

structure Trade where
  trade_id : String
  timestamp : Int
  price : ℤ
  size : ℤ
  buy_order_id : String
  sell_order_id : String
  aggressor_side : Side
deriving DecidableEq

structure MatchResult where
  order : Order
  trades : List Trade
  remaining_order : Option Order
  rejected : Bool
  rejection_reason : Option String
deriving DecidableEq

/-! ## Association-list maps

`sd_*` model SortedDict (keys kept sorted ascending); `dict_*` model the
plain insertion dict used for the order-id map. -/

def sd_get {α : Type} (p : ℤ) : List (ℤ × α) → Option α
  | [] => none
  | (q, v) :: t => if p = q then some v else sd_get p t

def sd_insert {α : Type} (p : ℤ) (v : α) : List (ℤ × α) → List (ℤ × α)
  | [] => [(p, v)]
  | (q, w) :: t =>
    if p < q then (p, v) :: (q, w) :: t
    else if p = q then (p, v) :: t
    else (q, w) :: sd_insert p v t

def sd_erase {α : Type} (p : ℤ) : List (ℤ × α) → List (ℤ × α)
  | [] => []
  | (q, w) :: t => if p = q then t else (q, w) :: sd_erase p t

def dict_get {α : Type} (k : String) : List (String × α) → Option α
  | [] => none
  | (k2, v) :: t => if k = k2 then some v else dict_get k t

def dict_insert {α : Type} (k : String) (v : α) : List (String × α) → List (String × α)
  | [] => [(k, v)]
  | (k2, w) :: t => if k = k2 then (k, v) :: t else (k2, w) :: dict_insert k v t

def dict_erase {α : Type} (k : String) : List (String × α) → List (String × α)
  | [] => []
  | (k2, w) :: t => if k = k2 then t else (k2, w) :: dict_erase k t

/-! ## Price levels (src/marksim/core/order_book.py, PriceLevel) -/

structure PriceLevel where
  price : ℤ
  orders : List Order
  total_size : ℤ
deriving DecidableEq

def PriceLevel.add_order (L : PriceLevel) (o : Order) : PriceLevel :=
  { price := L.price, orders := L.orders ++ [o], total_size := L.total_size + o.size }

/-- Removal from a level; `none` models the exhausted-level result. The new
total is recomputed as the sum of the `size` fields, exactly as the source
does. -/
def PriceLevel.remove_order (L : PriceLevel) (oid : String) :
    Option PriceLevel × Option Order :=
  let new_orders := L.orders.filter (fun o => o.order_id ≠ oid)
  let removed := L.orders.find? (fun o => o.order_id = oid)
  if new_orders.isEmpty then (none, removed)
  else (some { price := L.price, orders := new_orders,
               total_size := (new_orders.map Order.size).sum }, removed)

/-! ## Order book (src/marksim/core/order_book.py, OrderBookSnapshot and
ImmutableOrderBook merged into one structure) -/

structure Book where
  bids : List (ℤ × PriceLevel)
  asks : List (ℤ × PriceLevel)
  orders : List (String × Order)
  version : Nat
  last_trade_price : Option ℤ
deriving DecidableEq

def empty_book : Book :=
  { bids := [], asks := [], orders := [], version := 0, last_trade_price := none }

def Book.best_bid (b : Book) : Option ℤ := (b.bids.getLast?).map Prod.fst

def Book.best_ask (b : Book) : Option ℤ := (b.asks.head?).map Prod.fst

/-- Python `if self.best_bid and self.best_ask`: a missing side and a zero
price are both falsy, so the source returns None in both cases. -/
def Book.spread (b : Book) : Option ℤ :=
  match b.best_bid, b.best_ask with
  | some bb, some ba => if bb ≠ 0 ∧ ba ≠ 0 then some (ba - bb) else none
  | _, _ => none

/-- mid_price. Decimal division is exact, so the result is the exact
rational half of the sum. -/
def Book.mid_price (b : Book) : Option ℚ :=
  match b.best_bid, b.best_ask with
  | some bb, some ba =>
    if bb ≠ 0 ∧ ba ≠ 0 then some (((bb + ba : ℤ) : ℚ) / 2) else none
  | _, _ => none

def Book.get_order (b : Book) (oid : String) : Option Order :=
  dict_get oid b.orders

/-- add_order. Returns none where the source raises: a status outside
PENDING/OPEN/PARTIALLY_FILLED fails validation, and a priceless order cannot
be keyed into the sorted price map (a None key is unorderable there). The
stored copy always gets status OPEN. -/
def Book.add_order (b : Book) (o : Order) : Option Book :=
  if o.status = OrderStatus.PENDING ∨ o.status = OrderStatus.OPEN ∨
     o.status = OrderStatus.PARTIALLY_FILLED then
    match o.price with
    | none => none
    | some p =>
      let new_order := { o with status := OrderStatus.OPEN }
      let new_orders := dict_insert o.order_id new_order b.orders
      let side_levels := if o.side = Side.BUY then b.bids else b.asks
      let new_levels :=
        match sd_get p side_levels with
        | some L => sd_insert p (L.add_order new_order) side_levels
        | none => sd_insert p { price := p, orders := [new_order],
                                total_size := new_order.size } side_levels
      some (if o.side = Side.BUY then
              { b with bids := new_levels, orders := new_orders, version := b.version + 1 }
            else
              { b with asks := new_levels, orders := new_orders, version := b.version + 1 })
  else none

def Book.remove_order (b : Book) (oid : String) : Book × Option Order :=
  match dict_get oid b.orders with
  | none => (b, none)
  | some o =>
    let new_orders := dict_erase oid b.orders
    let side_levels := if o.side = Side.BUY then b.bids else b.asks
    let new_levels :=
      match o.price with
      | none => side_levels
      | some p =>
        match sd_get p side_levels with
        | none => side_levels
        | some L =>
          match (L.remove_order oid).1 with
          | none => sd_erase p side_levels
          | some L2 => sd_insert p L2 side_levels
    ((if o.side = Side.BUY then
        { b with bids := new_levels, orders := new_orders, version := b.version + 1 }
      else
        { b with asks := new_levels, orders := new_orders, version := b.version + 1 }),
     some o)

/-- update_order. The re-added copy carries size := old size - filled_size
and filled_size := filled_size, and add_order then forces its status to
OPEN. The inner add cannot fail (status and price are fine there), and the
getD fallback is never taken. -/
def Book.update_order (b : Book) (oid : String) (filled_size : ℤ)
    (status : OrderStatus) : Book :=
  match dict_get oid b.orders with
  | none => b
  | some o =>
    let new_book := (b.remove_order oid).1
    if status = OrderStatus.OPEN ∨ status = OrderStatus.PARTIALLY_FILLED then
      let remaining_size := o.size - filled_size
      if 0 < remaining_size then
        let updated_order :=
          { o with filled_size := filled_size, status := status, size := remaining_size }
        (new_book.add_order updated_order).getD new_book
      else new_book
    else new_book

def Book.record_trade (b : Book) (t : Trade) : Book :=
  { b with last_trade_price := some t.price, version := b.version + 1 }

/-! ## Matching engine (src/marksim/core/matching_engine.py) -/

/-- State threaded through the matching loops: current book, remaining
aggressor size, trades so far (in emission order). -/
structure MatchState where
  book : Book
  remaining : ℤ
  trades : List Trade
deriving DecidableEq

def mk_trade (agg : Order) (passive : Order) (price m : ℤ) (ts : Int) : Trade :=
  { trade_id := ""
    timestamp := ts
    price := price
    size := m
    buy_order_id := if agg.side = Side.BUY then agg.order_id else passive.order_id
    sell_order_id := if agg.side = Side.SELL then passive.order_id else agg.order_id
    aggressor_side := agg.side }

/-- One pass over a frozen list of passive orders at one price level: the
inner for-loop shared by the market and limit paths. -/
def consume_passives (agg : Order) (price : ℤ) (ts : Int)
    (passives : List Order) (st : MatchState) : MatchState :=
  passives.foldl
    (fun st passive =>
      if st.remaining ≤ 0 then st
      else
        let m := min st.remaining (passive.size - passive.filled_size)
        let t := mk_trade agg passive price m ts
        let passive_filled := passive.filled_size + m
        let passive_status :=
          if passive.size ≤ passive_filled then OrderStatus.FILLED
          else OrderStatus.PARTIALLY_FILLED
        let b2 := (st.book.update_order passive.order_id passive_filled
                     passive_status).record_trade t
        { book := b2, remaining := st.remaining - m, trades := st.trades ++ [t] })
    st

/-- Outer loop of the market path: walk a list of prices taken from the
original book, refetching the level from the current book at each price as
the source does. -/
def walk_prices (agg : Order) (ts : Int) (prices : List ℤ) (st : MatchState) :
    MatchState :=
  prices.foldl
    (fun st price =>
      if st.remaining ≤ 0 then st
      else
        match sd_get price (if agg.side = Side.BUY then st.book.asks else st.book.bids) with
        | none => st
        | some level => consume_passives agg price ts level.orders st)
    st

def match_market_order (order : Order) (book : Book) (ts : Int) :
    Book × MatchResult :=
  let levels := if order.side = Side.BUY then book.asks else book.bids
  let best_price := if order.side = Side.BUY then book.best_ask else book.best_bid
  if levels = [] ∨ best_price = none then
    (book, { order := order, trades := [], remaining_order := none,
             rejected := true, rejection_reason := some "No liquidity" })
  else
    let level_prices :=
      if order.side = Side.BUY then levels.map Prod.fst
      else (levels.map Prod.fst).reverse
    let st := walk_prices order ts level_prices
      { book := book, remaining := order.size, trades := [] }
    let filled_size := order.size - st.remaining
    if order.time_in_force = TimeInForce.FOK ∧ 0 < st.remaining then
      (book, { order := order, trades := [], remaining_order := none,
               rejected := true, rejection_reason := some "FOK not fully filled" })
    else
      let updated_order :=
        { order with filled_size := filled_size,
                     status := if st.remaining = 0 then OrderStatus.FILLED
                               else OrderStatus.PARTIALLY_FILLED }
      let remaining_order :=
        if order.time_in_force = TimeInForce.IOC then none
        else if 0 < st.remaining then some { order with size := st.remaining }
        else none
      (st.book, { order := updated_order, trades := st.trades,
                  remaining_order := remaining_order, rejected := false,
                  rejection_reason := none })

/-- Limit path. The crossable levels (price and frozen order list) are taken
from the original book, as in the source. -/
def walk_levels (agg : Order) (ts : Int) (levels : List (ℤ × PriceLevel))
    (st : MatchState) : MatchState :=
  levels.foldl
    (fun st pl =>
      if st.remaining ≤ 0 then st
      else consume_passives agg pl.1 ts pl.2.orders st)
    st

def match_limit_order (order : Order) (book : Book) (ts : Int) :
    Book × MatchResult :=
  match order.price with
  | none =>
    (book, { order := order, trades := [], remaining_order := none,
             rejected := true, rejection_reason := some "Limit order must have price" })
  | some limit_price =>
    let crosses_spread : Bool :=
      if order.side = Side.BUY then
        match book.best_ask with
        | some best_ask => decide (best_ask ≤ limit_price)
        | none => false
      else
        match book.best_bid with
        | some best_bid => decide (limit_price ≤ best_bid)
        | none => false
    let st0 : MatchState := { book := book, remaining := order.size, trades := [] }
    let st :=
      if crosses_spread then
        let levels :=
          if order.side = Side.BUY then
            book.asks.filter (fun pl => pl.1 ≤ limit_price)
          else
            (book.bids.filter (fun pl => limit_price ≤ pl.1)).reverse
        walk_levels order ts levels st0
      else st0
    let filled_size := order.size - st.remaining
    if order.time_in_force = TimeInForce.FOK ∧ 0 < st.remaining then
      (book, { order := order, trades := [], remaining_order := none,
               rejected := true, rejection_reason := some "FOK not fully filled" })
    else if order.time_in_force = TimeInForce.IOC then
      let updated_order :=
        { order with filled_size := filled_size,
                     status := if st.remaining = 0 then OrderStatus.FILLED
                               else OrderStatus.CANCELLED }
      (st.book, { order := updated_order, trades := st.trades,
                  remaining_order := none, rejected := false,
                  rejection_reason := none })
    else
      let posted :=
        if 0 < st.remaining then
          let remaining_order :=
            { order with size := st.remaining, filled_size := filled_size,
                         status := if 0 < filled_size then OrderStatus.PARTIALLY_FILLED
                                   else OrderStatus.OPEN }
          ((st.book.add_order remaining_order).getD st.book, some remaining_order)
        else (st.book, none)
      let updated_order :=
        { order with filled_size := filled_size,
                     status := if st.remaining = 0 then OrderStatus.FILLED
                               else OrderStatus.PARTIALLY_FILLED }
      (posted.1, { order := updated_order, trades := st.trades,
                   remaining_order := posted.2, rejected := false,
                   rejection_reason := none })

def match_order (order : Order) (book : Book) (ts : Int) : Book × MatchResult :=
  if order.size ≤ 0 then
    (book, { order := order, trades := [], remaining_order := none,
             rejected := true, rejection_reason := some "Invalid size" })
  else if order.order_type = OrderType.MARKET then
    match_market_order order book ts
  else if order.order_type = OrderType.LIMIT then
    match_limit_order order book ts
  else
    (book, { order := order, trades := [], remaining_order := none,
             rejected := true, rejection_reason := some "Unsupported order type" })

/-! ## Time engine (src/marksim/core/time_engine.py)

Virtual-time core of AsyncTimeEngine. The heap is modelled as the list of
its entries; push appends, pop removes the entry with the least
(timestamp, priority, counter) key, which is what heapq pops. Real-time
sleeping, the pause gate and the periodic cooperative yield do not touch
the virtual clock or the queue and are not modelled. Delays are taken
nonnegative (the claims quantify over runs with delay_us at least 0). -/

structure TimeEvent where
  timestamp : Nat
  priority : Nat
deriving DecidableEq

/-- A heap entry (timestamp, priority, counter, event). -/
structure QEntry where
  ts : Nat
  prio : Nat
  counter : Nat
  event : TimeEvent
deriving DecidableEq

def QEntry.key (e : QEntry) : Nat × Nat × Nat := (e.ts, e.prio, e.counter)

def key_lt (a b : Nat × Nat × Nat) : Prop :=
  a.1 < b.1 ∨ (a.1 = b.1 ∧ (a.2.1 < b.2.1 ∨ (a.2.1 = b.2.1 ∧ a.2.2 < b.2.2)))

instance (a b : Nat × Nat × Nat) : Decidable (key_lt a b) := by
  unfold key_lt; infer_instance

def key_le (a b : Nat × Nat × Nat) : Prop :=
  a.1 < b.1 ∨ (a.1 = b.1 ∧ (a.2.1 < b.2.1 ∨ (a.2.1 = b.2.1 ∧ a.2.2 ≤ b.2.2)))

structure EngineState where
  current_time_us : Nat
  queue : List QEntry
  event_counter : Nat
  max_queue_size : Nat
  events_processed : Nat
  events_scheduled : Nat
  events_dropped : Nat
deriving DecidableEq

def mk_engine (start_time_us : Nat) : EngineState :=
  { current_time_us := start_time_us, queue := [], event_counter := 0,
    max_queue_size := 100000, events_processed := 0, events_scheduled := 0,
    events_dropped := 0 }

def schedule_event (st : EngineState) (event : TimeEvent) (delay_us : Nat) :
    Bool × EngineState :=
  if st.max_queue_size ≤ st.queue.length then
    (false, { st with events_dropped := st.events_dropped + 1 })
  else
    let timestamp := st.current_time_us + delay_us
    (true,
     { st with
       queue := st.queue ++
         [{ ts := timestamp, prio := event.priority, counter := st.event_counter,
            event := event }]
       event_counter := st.event_counter + 1
       events_scheduled := st.events_scheduled + 1 })

/-- schedule_recurring for an explicit count: loops while scheduled < count,
calling the factory with current_time + scheduled * interval but always
scheduling with delay 0; stops early when schedule_event returns false. -/
def schedule_recurring_counted (factory : Nat → TimeEvent) (interval_us : Nat)
    (base_time : Nat) : Nat → Nat → EngineState → EngineState
  | 0, _, st => st
  | n + 1, scheduled, st =>
    let event := factory (base_time + scheduled * interval_us)
    let r := schedule_event st event 0
    if r.1 then schedule_recurring_counted factory interval_us base_time n (scheduled + 1) r.2
    else r.2

/-- schedule_recurring with count None: loops until the queue fills. The
recursion terminates because each successful push grows the queue towards
max_queue_size. -/
def schedule_recurring_unbounded (factory : Nat → TimeEvent) (interval_us : Nat)
    (base_time : Nat) (scheduled : Nat) (st : EngineState) : EngineState :=
  if _h : (schedule_event st (factory (base_time + scheduled * interval_us)) 0).1 then
    schedule_recurring_unbounded factory interval_us base_time (scheduled + 1)
      (schedule_event st (factory (base_time + scheduled * interval_us)) 0).2
  else (schedule_event st (factory (base_time + scheduled * interval_us)) 0).2
termination_by st.max_queue_size - st.queue.length
decreasing_by
  simp only [schedule_event] at _h ⊢
  split at _h
  · simp at _h
  · rename_i hc
    rw [if_neg hc]
    simp only [not_le] at hc
    simp only [List.length_append, List.length_cons, List.length_nil]
    omega

def schedule_recurring (st : EngineState) (factory : Nat → TimeEvent)
    (interval_us : Nat) (count : Option Nat) : EngineState :=
  match count with
  | some n => schedule_recurring_counted factory interval_us st.current_time_us n 0 st
  | none => schedule_recurring_unbounded factory interval_us st.current_time_us 0 st

/-- Remove the entry with the least key; heapq-pop on the entry multiset. -/
def pick_min (e : QEntry) : List QEntry → QEntry
  | [] => e
  | x :: t => if key_lt x.key e.key then pick_min x t else pick_min e t

def pop_min (l : List QEntry) : Option (QEntry × List QEntry) :=
  match l with
  | [] => none
  | x :: t =>
    let e := pick_min x t
    some (e, l.erase e)

/-- The run loop, driven by `fuel` steps. Handlers are modelled by a
function giving, for each dispatched event, the events they schedule (with
their delays) during that dispatch; scheduling happens after the clock has
advanced to the popped timestamp, as in the source. Returns the keys of
the dispatched events in dispatch order together with the final state. -/
def run_steps (handler_sched : TimeEvent → List (TimeEvent × Nat)) :
    Nat → EngineState → List (Nat × Nat × Nat) × EngineState
  | 0, st => ([], st)
  | fuel + 1, st =>
    match pop_min st.queue with
    | none => ([], st)
    | some (e, rest) =>
      let st1 := { st with queue := rest, current_time_us := e.ts,
                           events_processed := st.events_processed + 1 }
      let st2 := (handler_sched e.event).foldl
        (fun s p => (schedule_event s p.1 p.2).2) st1
      let r := run_steps handler_sched fuel st2
      (e.key :: r.1, r.2)

/-! ## Trade notification (src/marksim/simulation.py _handle_trade_event and
src/marksim/agents/base.py on_trade_executed)

Agents are modelled by their id and position, the only agent state the
conservation claim is about. -/

/-- on_trade_executed position update applied through notify_trade: affects
the agent with the given id, adding the executed size for a BUY order and
subtracting it for a SELL order. A missing id leaves every agent unchanged. -/
def apply_trade_callback (agents : List (String × ℤ)) (aid : String)
    (side : Side) (executed_size : ℤ) : List (String × ℤ) :=
  agents.map (fun a =>
    if a.1 = aid then
      (a.1, if side = Side.BUY then a.2 + executed_size else a.2 - executed_size)
    else a)

/-- The agent-notification part of _handle_trade_event: look up the buy and
sell order ids of the trade in the current (post-match) book; for each id
that is still present, notify that order's agent. -/
def notify_positions (book : Book) (agents : List (String × ℤ)) (t : Trade) :
    List (String × ℤ) :=
  let agents1 :=
    match book.get_order t.buy_order_id with
    | some o => apply_trade_callback agents o.agent_id o.side t.size
    | none => agents
  match book.get_order t.sell_order_id with
  | some o => apply_trade_callback agents1 o.agent_id o.side t.size
  | none => agents1

/-! ## Candle stream (src/marksim/streaming/data_stream.py CandleStream)

Per-timeframe state; publishes are modelled as an append-only emission
list (the bounded stream drop policy is not part of any claim). -/

structure Candle where
  timestamp : Int
  open_price : ℤ
  high : ℤ
  low : ℤ
  close : ℤ
  volume : ℤ
  trade_count : Nat
  timeframe : String
deriving DecidableEq

structure CandleData where
  candle : Candle
  is_closed : Bool
  timeframe : String
  sequence_id : Nat
deriving DecidableEq

/-- Python tf[-1]; the default is never taken for a nonempty tag (the
source raises IndexError on an empty one). Implemented on the character
list of the string so that it evaluates by kernel reduction. -/
def str_back (tf : String) : Char :=
  (tf.data.getLast?).getD 'A'

/-- Python tf[:-1] as a character list. -/
def str_drop_last (tf : String) : List Char :=
  tf.data.dropLast

/-- Python int() on a string: every character a digit and at least one. -/
def chars_to_nat? (cs : List Char) : Option Nat :=
  if cs ≠ [] ∧ cs.all Char.isDigit then
    some (cs.foldl (fun n c => n * 10 + (c.toNat - 48)) 0)
  else none

/-- Python tf.endswith(single-character suffix). -/
def str_ends_with (tf : String) (c : Char) : Bool :=
  match tf.data.getLast? with
  | some d => d = c
  | none => false

/-- _parse_timeframe: numeric prefix times the unit multiplier, default
unit multiplier 60. The int() parse is modelled with default 0 for a
non-numeric prefix (the source would raise there). -/
def parse_timeframe (tf : String) : Nat :=
  let unit := str_back tf
  let value := (chars_to_nat? (str_drop_last tf)).getD 0
  let multiplier :=
    if unit = 's' then 1
    else if unit = 'm' then 60
    else if unit = 'h' then 3600
    else if unit = 'd' then 86400
    else 60
  value * multiplier

/-- _get_candle_start_time. Python floor division is Int.fdiv. -/
def candle_start_time (timestamp_us : Int) (tf : String) : Int :=
  let interval_seconds : Int := parse_timeframe tf
  if str_ends_with tf 's' then
    let seconds := Int.fdiv timestamp_us 1000000
    let aligned_seconds := (Int.fdiv seconds interval_seconds) * interval_seconds
    aligned_seconds * 1000000
  else
    let minutes := Int.fdiv timestamp_us 60000000
    let aligned_minutes := (Int.fdiv minutes interval_seconds) * interval_seconds
    aligned_minutes * 60000000

def update_throttle_ms (tf : String) : Option Int :=
  if tf = "1s" then some 100
  else if tf = "3s" then some 200
  else if tf = "5s" then some 300
  else if tf = "10s" then some 500
  else if tf = "15s" then some 750
  else if tf = "30s" then some 1000
  else none

structure TFState where
  current : Option Candle
  sequence_counter : Nat
  last_update_time : Int
  emitted : List CandleData
deriving DecidableEq

def initial_tf_state : TFState :=
  { current := none, sequence_counter := 0, last_update_time := 0, emitted := [] }

def should_update_candle (tf : String) (timestamp_us : Int) (st : TFState) : Bool :=
  match update_throttle_ms tf with
  | none => true
  | some throttle_ms =>
    decide (throttle_ms ≤ Int.fdiv (timestamp_us - st.last_update_time) 1000)

/-- _update_candle for one timeframe. -/
def update_candle (tf : String) (st : TFState) (t : Trade) : TFState :=
  let cs := candle_start_time t.timestamp tf
  match st.current with
  | some candle =>
    if candle.timestamp = cs then
      let updated_candle : Candle :=
        { timestamp := candle.timestamp, open_price := candle.open_price,
          high := max candle.high t.price, low := min candle.low t.price,
          close := t.price, volume := candle.volume + t.size,
          trade_count := candle.trade_count + 1, timeframe := tf }
      if should_update_candle tf t.timestamp st then
        let seq := st.sequence_counter + 1
        { current := some updated_candle, sequence_counter := seq,
          last_update_time := t.timestamp,
          emitted := st.emitted ++
            [{ candle := updated_candle, is_closed := false, timeframe := tf,
               sequence_id := seq }] }
      else
        { st with current := some updated_candle }
    else
      let seq1 := st.sequence_counter + 1
      let closed : CandleData :=
        { candle := candle, is_closed := true, timeframe := tf, sequence_id := seq1 }
      let new_candle : Candle :=
        { timestamp := cs, open_price := t.price, high := t.price, low := t.price,
          close := t.price, volume := t.size, trade_count := 1, timeframe := tf }
      let seq2 := seq1 + 1
      { current := some new_candle, sequence_counter := seq2,
        last_update_time := st.last_update_time,
        emitted := st.emitted ++
          [closed,
           { candle := new_candle, is_closed := false, timeframe := tf,
             sequence_id := seq2 }] }
  | none =>
    let new_candle : Candle :=
      { timestamp := cs, open_price := t.price, high := t.price, low := t.price,
        close := t.price, volume := t.size, trade_count := 1, timeframe := tf }
    let seq := st.sequence_counter + 1
    { current := some new_candle, sequence_counter := seq,
      last_update_time := st.last_update_time,
      emitted := st.emitted ++
        [{ candle := new_candle, is_closed := false, timeframe := tf,
           sequence_id := seq }] }

/-! ## Reachable books

Books reachable from the empty book through the public book mutators and
the matching engine, as quantified by the invariant claims. -/

inductive Reachable : Book → Prop
  | empty : Reachable empty_book
  | add {b b2 : Book} {o : Order} :
      Reachable b → b.add_order o = some b2 → Reachable b2
  | remove {b : Book} {oid : String} :
      Reachable b → Reachable (b.remove_order oid).1
  | update {b : Book} {oid : String} {f : ℤ} {s : OrderStatus} :
      Reachable b → Reachable (b.update_order oid f s)
  | record {b : Book} {t : Trade} :
      Reachable b → Reachable (b.record_trade t)
  | matched {b : Book} {o : Order} {ts : Int} :
      Reachable b → Reachable (match_order o b ts).1

/-! ## Invariant predicates -/

/-- A level's recorded total against the sum of the size fields of its
orders (the stored size of a resting order is its remaining quantity). -/
def level_ok (L : PriceLevel) : Prop :=
  L.total_size = (L.orders.map Order.size).sum

/-- Every price level of the book satisfies `level_ok`. -/
def book_ok (b : Book) : Prop :=
  ∀ p L, ((p, L) ∈ b.bids ∨ (p, L) ∈ b.asks) → level_ok L

/-- Every queued entry lies at or after the engine's current virtual time. -/
def engine_inv (st : EngineState) : Prop :=
  ∀ e ∈ st.queue, st.current_time_us ≤ e.ts

/-! ## Concrete scenario inputs -/

/-- S1 resting order: LIMIT BUY id=B1 size=2 price=100 GTC. -/
def order_B1 : Order :=
  { order_id := "B1", agent_id := "agentB", side := Side.BUY,
    order_type := OrderType.LIMIT, size := 2, price := some 100,
    time_in_force := TimeInForce.GTC, timestamp := 1000,
    status := OrderStatus.PENDING, filled_size := 0 }

/-- S1 aggressor: LIMIT SELL id=S1 size=1 price=100 IOC. -/
def order_S1 : Order :=
  { order_id := "S1", agent_id := "agentS", side := Side.SELL,
    order_type := OrderType.LIMIT, size := 1, price := some 100,
    time_in_force := TimeInForce.IOC, timestamp := 2000,
    status := OrderStatus.PENDING, filled_size := 0 }

/-- A second SELL aggressor sent after S1, used to exercise matching against
the stored partially filled copy of B1. -/
def order_S2 : Order :=
  { order_id := "S2", agent_id := "agentS2", side := Side.SELL,
    order_type := OrderType.LIMIT, size := 1, price := some 100,
    time_in_force := TimeInForce.IOC, timestamp := 3000,
    status := OrderStatus.PENDING, filled_size := 0 }

/-- Book after matching B1 into the empty book. -/
abbrev s1_book1 : Book := (match_order order_B1 empty_book 1000).1

/-- Book after then matching S1. -/
abbrev s1_book2 : Book := (match_order order_S1 s1_book1 2000).1

/-- The stored copy of B1 left in the book after S1 matched: size is the
remaining quantity, filled_size the filled quantity, and add_order has
normalised the status to OPEN. -/
def s1_stored_B1 : Order :=
  { order_id := "B1", agent_id := "agentB", side := Side.BUY,
    order_type := OrderType.LIMIT, size := 1, price := some 100,
    time_in_force := TimeInForce.GTC, timestamp := 1000,
    status := OrderStatus.OPEN, filled_size := 1 }

/-- The bid level left by scenario S1. -/
def s1_level : PriceLevel :=
  { price := 100, orders := [s1_stored_B1], total_size := 1 }

/-- The single trade that S1 produces. Both order-id fields carry B1: the
source computes sell_order_id as the passive id for a SELL aggressor. -/
def s1_trade : Trade :=
  { trade_id := "", timestamp := 2000, price := 100, size := 1,
    buy_order_id := "B1", sell_order_id := "B1", aggressor_side := Side.SELL }

/-- Two agents standing behind B1 and S1, both flat. -/
def c5_agents : List (String × ℤ) := [("agentB", 0), ("agentS", 0)]

/-- Book used for the C2 counterexample: add B1 and then apply update_order
with filled_size 1 and status PARTIALLY_FILLED. -/
abbrev c2_add_book : Book := (empty_book.add_order order_B1).getD empty_book

abbrev c2_bad_book : Book :=
  c2_add_book.update_order "B1" 1 OrderStatus.PARTIALLY_FILLED

/-- A MARKET BUY FOK order with no book liquidity behind it. -/
def c4_market_fok : Order :=
  { order_id := "M1", agent_id := "agentM", side := Side.BUY,
    order_type := OrderType.MARKET, size := 1, price := none,
    time_in_force := TimeInForce.FOK, timestamp := 0,
    status := OrderStatus.PENDING, filled_size := 0 }

/-- S2 spec scenario passive order: SELL@101 size 1. -/
def order_A1 : Order :=
  { order_id := "A1", agent_id := "agentA", side := Side.SELL,
    order_type := OrderType.LIMIT, size := 1, price := some 101,
    time_in_force := TimeInForce.GTC, timestamp := 100,
    status := OrderStatus.PENDING, filled_size := 0 }

/-- S2 spec scenario aggressor: LIMIT BUY size 2 price 101 FOK. -/
def c4_limit_fok : Order :=
  { order_id := "F1", agent_id := "agentF", side := Side.BUY,
    order_type := OrderType.LIMIT, size := 2, price := some 101,
    time_in_force := TimeInForce.FOK, timestamp := 5000,
    status := OrderStatus.PENDING, filled_size := 0 }

abbrev c4_book : Book := (empty_book.add_order order_A1).getD empty_book

/-- Zero-price resting bid for the C9 counterexample. -/
def order_zero_bid : Order :=
  { order_id := "ZB", agent_id := "agentZ", side := Side.BUY,
    order_type := OrderType.LIMIT, size := 1, price := some 0,
    time_in_force := TimeInForce.GTC, timestamp := 0,
    status := OrderStatus.PENDING, filled_size := 0 }

def order_one_ask : Order :=
  { order_id := "ZA", agent_id := "agentZ", side := Side.SELL,
    order_type := OrderType.LIMIT, size := 1, price := some 1,
    time_in_force := TimeInForce.GTC, timestamp := 0,
    status := OrderStatus.PENDING, filled_size := 0 }

abbrev c9_zero_book : Book :=
  (((empty_book.add_order order_zero_bid).getD empty_book).add_order
    order_one_ask).getD empty_book

/-- Normal two-sided book for the C9 witness: bid 100, ask 101. -/
def order_bid_100 : Order :=
  { order_id := "WB", agent_id := "agentW", side := Side.BUY,
    order_type := OrderType.LIMIT, size := 1, price := some 100,
    time_in_force := TimeInForce.GTC, timestamp := 0,
    status := OrderStatus.PENDING, filled_size := 0 }

def order_ask_101 : Order :=
  { order_id := "WA", agent_id := "agentW", side := Side.SELL,
    order_type := OrderType.LIMIT, size := 1, price := some 101,
    time_in_force := TimeInForce.GTC, timestamp := 0,
    status := OrderStatus.PENDING, filled_size := 0 }

abbrev c9_witness_book : Book :=
  (((empty_book.add_order order_bid_100).getD empty_book).add_order
    order_ask_101).getD empty_book

/-- Handler model for the C6 counterexample: the handler of the priority-3
event schedules a priority-2 event with delay 0, as the orchestrator's
order handler schedules trade events. -/
def c6_handler : TimeEvent → List (TimeEvent × Nat) :=
  fun e => if e.priority = 3 then [({ timestamp := 10, priority := 2 }, 0)] else []

/-- Engine state holding one priority-3 event at time 10, built through
schedule_event from a fresh engine. -/
abbrev c6_state : EngineState :=
  (schedule_event (mk_engine 10) { timestamp := 10, priority := 3 } 0).2

/-- The three S5 trades: ts=500ms px=10, ts=1500ms px=12, ts=2500ms px=9. -/
def c8_trade1 : Trade :=
  { trade_id := "", timestamp := 500000, price := 10, size := 1,
    buy_order_id := "b", sell_order_id := "s", aggressor_side := Side.BUY }

def c8_trade2 : Trade :=
  { trade_id := "", timestamp := 1500000, price := 12, size := 1,
    buy_order_id := "b", sell_order_id := "s", aggressor_side := Side.BUY }

def c8_trade3 : Trade :=
  { trade_id := "", timestamp := 2500000, price := 9, size := 1,
    buy_order_id := "b", sell_order_id := "s", aggressor_side := Side.BUY }

abbrev c8_final : TFState :=
  update_candle "1s" (update_candle "1s" (update_candle "1s" initial_tf_state
    c8_trade1) c8_trade2) c8_trade3

def c8_candle0 : Candle :=
  { timestamp := 0, open_price := 10, high := 10, low := 10, close := 10,
    volume := 1, trade_count := 1, timeframe := "1s" }

def c8_candle1 : Candle :=
  { timestamp := 1000000, open_price := 12, high := 12, low := 12, close := 12,
    volume := 1, trade_count := 1, timeframe := "1s" }

def c8_candle2 : Candle :=
  { timestamp := 2000000, open_price := 9, high := 9, low := 9, close := 9,
    volume := 1, trade_count := 1, timeframe := "1s" }

/-! ## C1: scenario S1 -/

/-- C1 counterexample: in scenario S1 the stored copy of B1 has status
OPEN, not PARTIALLY_FILLED, because add_order rewrites the status of every
stored copy to OPEN. -/
theorem c1_status_counterexample :
    s1_book2.get_order "B1" = some s1_stored_B1 ∧
    s1_stored_B1.status = OrderStatus.OPEN ∧
    s1_stored_B1.status ≠ OrderStatus.PARTIALLY_FILLED := by
  decide

/-- C1 (amended): scenario S1 produces exactly one trade at price 100, size
1, aggressor SELL; the resulting book holds exactly one resting order, the
copy of B1 at price 100 with remaining size 1 and filled size 1; but that
stored copy has status OPEN (add_order normalises the stored status), not
PARTIALLY_FILLED. -/
theorem c1_s1_simple_cross :
    ((match_order order_S1 s1_book1 2000).2.trades.map
      (fun t => (t.price, t.size, t.aggressor_side))) = [(100, 1, Side.SELL)] ∧
    s1_book2.orders = [("B1", s1_stored_B1)] ∧
    s1_book2.bids = [(100, { price := 100, orders := [s1_stored_B1], total_size := 1 })] ∧
    s1_book2.asks = [] ∧
    s1_stored_B1.size = 1 ∧
    s1_stored_B1.status = OrderStatus.OPEN := by
  decide

/-! ## C3: trade size positivity fails on reachable books -/

/-- C3 failing input: after S1, the stored copy of B1 has size 1 and
filled_size 1, so the matcher computes min(remaining, size - filled_size) =
0 for the next crossing SELL and emits a zero-size trade (and then marks
the copy FILLED and removes it). The trade price still equals the passive
level price 100. -/
theorem c3_zero_size_trade :
    Reachable s1_book2 ∧
    ((match_order order_S2 s1_book2 3000).2.trades.map
      (fun t => (t.price, t.size))) = [(100, 0)] ∧
    (match_order order_S2 s1_book2 3000).1.orders = [] := by
  refine ⟨Reachable.matched (Reachable.matched Reachable.empty), ?_, ?_⟩ <;> decide

/-! ## C5: position conservation fails in the trade handler -/

/-- C5 failing input: processing the S1 trade event notifies via book
lookup of the trade's order ids. Both ids hold B1 (the sell side id is
computed as the passive id for a SELL aggressor), B1's copy is still in the
book, and the S1 aggressor was never stored, so the buy-side agent is
credited twice and the sell-side agent never debited: positions sum to 2. -/
theorem c5_conservation_violation :
    (match_order order_S1 s1_book1 2000).2.trades = [s1_trade] ∧
    notify_positions s1_book2 c5_agents s1_trade = [("agentB", 2), ("agentS", 0)] ∧
    ((notify_positions s1_book2 c5_agents s1_trade).map Prod.snd).sum ≠ 0 := by
  decide

/-! ## C8: candle rollup scenario S5 -/

/-- C8: on timeframe 1s, the three S5 trades produce a closed candle for
second 0 with all OHLC fields 10, a closed candle for second 1 with all
fields 12, and leave a current open candle for second 2 with all fields 9;
the emitted sequence also carries the unconditional opening publish of each
candle, and the candle start times follow the sub-minute alignment. -/
theorem c8_candle_rollup :
    c8_final.emitted =
      [{ candle := c8_candle0, is_closed := false, timeframe := "1s", sequence_id := 1 },
       { candle := c8_candle0, is_closed := true, timeframe := "1s", sequence_id := 2 },
       { candle := c8_candle1, is_closed := false, timeframe := "1s", sequence_id := 3 },
       { candle := c8_candle1, is_closed := true, timeframe := "1s", sequence_id := 4 },
       { candle := c8_candle2, is_closed := false, timeframe := "1s", sequence_id := 5 }] ∧
    c8_final.current = some c8_candle2 ∧
    candle_start_time 500000 "1s" = 0 ∧
    candle_start_time 1500000 "1s" = 1000000 ∧
    candle_start_time 2500000 "1s" = 2000000 := by
  decide

/-! ## C4 counterexample -/

/-- C4 counterexample: a MARKET FOK order against an empty opposite side
cannot be filled at all, yet it is rejected with reason No liquidity, not
FOK not fully filled (the liquidity check precedes the FOK check). -/
theorem c4_reason_counterexample :
    (match_order c4_market_fok empty_book 0).2.rejected = true ∧
    (match_order c4_market_fok empty_book 0).2.trades = [] ∧
    (match_order c4_market_fok empty_book 0).2.rejection_reason = some "No liquidity" ∧
    (match_order c4_market_fok empty_book 0).2.rejection_reason ≠
      some "FOK not fully filled" := by
  decide

/-! ## C9 counterexample -/

/-- C9 counterexample: a book whose best bid price is 0 has both sides
populated, yet spread and mid_price return none, because the source guards
them with Python truthiness and Decimal 0 is falsy. -/
theorem c9_zero_price_counterexample :
    c9_zero_book.best_bid = some 0 ∧
    c9_zero_book.best_ask = some 1 ∧
    c9_zero_book.bids ≠ [] ∧
    c9_zero_book.asks ≠ [] ∧
    c9_zero_book.spread = none ∧
    c9_zero_book.mid_price = none := by
  decide

/-! ## C7: schedule_event backpressure -/

/-- C7: schedule_event returns false exactly when the queue already holds
at least max_queue_size entries (100000 on a freshly built engine); in that
case it only increments the dropped counter, and otherwise it appends the
entry (current_time_us + delay_us, priority, counter) and returns true. -/
theorem c7_schedule_event_backpressure (st : EngineState) (ev : TimeEvent) (d : Nat) :
    ((schedule_event st ev d).1 = false ↔ st.max_queue_size ≤ st.queue.length) ∧
    (st.max_queue_size ≤ st.queue.length →
      (schedule_event st ev d).2 = { st with events_dropped := st.events_dropped + 1 }) ∧
    (st.queue.length < st.max_queue_size →
      (schedule_event st ev d).2 =
        { st with
          queue := st.queue ++ [{ ts := st.current_time_us + d, prio := ev.priority,
                                  counter := st.event_counter, event := ev }],
          event_counter := st.event_counter + 1,
          events_scheduled := st.events_scheduled + 1 }) ∧
    (mk_engine 0).max_queue_size = 100000 := by
  unfold schedule_event
  split_ifs with hc
  · exact ⟨by simp [hc], fun _ => rfl, fun hlt => absurd hc (by omega), rfl⟩
  · exact ⟨by simp [hc], fun hle => absurd hle hc, fun _ => rfl, rfl⟩

/-! ## C9 amended -/

/-- C9 (amended): whenever both a best bid and a best ask exist and both
prices are nonzero, spread returns their difference and mid_price their
exact average; a zero best price on either side makes both return none
(Python truthiness), as the counterexample shows. -/
theorem c9_spread_mid_nonzero (b : Book) (bb ba : ℤ) (hbb : b.best_bid = some bb)
    (hba : b.best_ask = some ba) (h0 : bb ≠ 0) (h1 : ba ≠ 0) :
    b.spread = some (ba - bb) ∧ b.mid_price = some (((bb + ba : ℤ) : ℚ) / 2) := by
  unfold Book.spread Book.mid_price
  rw [hbb, hba]
  simp [h0, h1]

/-- C9 witness: on the bid-100/ask-101 book the amended theorem gives
spread 1 and mid price 201/2. -/
theorem c9_spread_mid_witness :
    c9_witness_book.spread = some 1 ∧
    c9_witness_book.mid_price = some ((201 : ℚ) / 2) := by
  have h := c9_spread_mid_nonzero c9_witness_book 100 101 (by decide) (by decide)
    (by decide) (by decide)
  refine ⟨?_, ?_⟩
  · rw [h.1]; decide
  · rw [h.2]; norm_num

/-! ## C10: schedule_recurring pushes everything at the current time -/

/-- schedule_event on a full queue: reject and count the drop. -/
theorem schedule_event_full {st : EngineState} (ev : TimeEvent) (d : Nat)
    (h : st.max_queue_size ≤ st.queue.length) :
    schedule_event st ev d =
      (false, { st with events_dropped := st.events_dropped + 1 }) := by
  unfold schedule_event
  rw [if_pos h]

/-- schedule_event below capacity: append the keyed entry. -/
theorem schedule_event_push {st : EngineState} (ev : TimeEvent) (d : Nat)
    (h : st.queue.length < st.max_queue_size) :
    schedule_event st ev d =
      (true,
       { st with
         queue := st.queue ++ [{ ts := st.current_time_us + d, prio := ev.priority,
                                 counter := st.event_counter, event := ev }],
         event_counter := st.event_counter + 1,
         events_scheduled := st.events_scheduled + 1 }) := by
  unfold schedule_event
  rw [if_neg (by omega)]

/-- Behaviour of the counted loop: the current time and capacity are
unchanged, every new entry carries the call-time current_time_us as its
queue timestamp, and exactly min(count, free capacity) events get in. -/
theorem schedule_recurring_counted_spec (factory : Nat → TimeEvent)
    (interval base : Nat) :
    ∀ (n scheduled : Nat) (st : EngineState),
      (schedule_recurring_counted factory interval base n scheduled st).current_time_us
        = st.current_time_us ∧
      (schedule_recurring_counted factory interval base n scheduled st).max_queue_size
        = st.max_queue_size ∧
      (∀ e ∈ (schedule_recurring_counted factory interval base n scheduled st).queue,
        e ∈ st.queue ∨ e.ts = st.current_time_us) ∧
      (schedule_recurring_counted factory interval base n scheduled st).queue.length
        = st.queue.length + min n (st.max_queue_size - st.queue.length) := by
  intro n
  induction n with
  | zero =>
    intro scheduled st
    exact ⟨rfl, rfl, fun e he => Or.inl he, by simp [schedule_recurring_counted]⟩
  | succ n ih =>
    intro scheduled st
    by_cases hc : st.max_queue_size ≤ st.queue.length
    · simp only [schedule_recurring_counted,
        schedule_event_full (factory (base + scheduled * interval)) 0 hc]
      refine ⟨rfl, rfl, fun e he => Or.inl he, ?_⟩
      have h0 : st.max_queue_size - st.queue.length = 0 := by omega
      simp [h0]
    · push_neg at hc
      simp only [schedule_recurring_counted,
        schedule_event_push (factory (base + scheduled * interval)) 0 hc]
      simp only [if_true]
      obtain ⟨ih1, ih2, ih3, ih4⟩ := ih (scheduled + 1)
        { st with
          queue := st.queue ++ [{ ts := st.current_time_us + 0,
                                  prio := (factory (base + scheduled * interval)).priority,
                                  counter := st.event_counter,
                                  event := factory (base + scheduled * interval) }],
          event_counter := st.event_counter + 1,
          events_scheduled := st.events_scheduled + 1 }
      refine ⟨ih1, ih2, ?_, ?_⟩
      · intro e he
        rcases ih3 e he with h | h
        · rcases List.mem_append.mp h with h | h
          · exact Or.inl h
          · simp only [List.mem_singleton] at h
            subst h
            exact Or.inr rfl
        · exact Or.inr h
      · rw [ih4]
        simp only [List.length_append, List.length_singleton]
        omega

/-- Behaviour of the unbounded loop: same shape, except the queue is filled
up to capacity. -/
theorem schedule_recurring_unbounded_spec (factory : Nat → TimeEvent)
    (interval base : Nat) :
    ∀ (fuel scheduled : Nat) (st : EngineState),
      st.max_queue_size - st.queue.length ≤ fuel →
      (schedule_recurring_unbounded factory interval base scheduled st).current_time_us
        = st.current_time_us ∧
      (∀ e ∈ (schedule_recurring_unbounded factory interval base scheduled st).queue,
        e ∈ st.queue ∨ e.ts = st.current_time_us) ∧
      (schedule_recurring_unbounded factory interval base scheduled st).queue.length
        = max st.queue.length st.max_queue_size := by
  intro fuel
  induction fuel with
  | zero =>
    intro scheduled st hfuel
    have hc : st.max_queue_size ≤ st.queue.length := by omega
    rw [schedule_recurring_unbounded]
    simp only [schedule_event_full (factory (base + scheduled * interval)) 0 hc]
    rw [dif_neg Bool.false_ne_true]
    refine ⟨rfl, fun e he => Or.inl he, ?_⟩
    dsimp only
    omega
  | succ fuel ih =>
    intro scheduled st hfuel
    by_cases hc : st.max_queue_size ≤ st.queue.length
    · rw [schedule_recurring_unbounded]
      simp only [schedule_event_full (factory (base + scheduled * interval)) 0 hc]
      rw [dif_neg Bool.false_ne_true]
      refine ⟨rfl, fun e he => Or.inl he, ?_⟩
      dsimp only
      omega
    · push_neg at hc
      rw [schedule_recurring_unbounded]
      simp only [schedule_event_push (factory (base + scheduled * interval)) 0 hc]
      simp only [dif_pos]
      obtain ⟨ih1, ih2, ih3⟩ := ih (scheduled + 1)
        { st with
          queue := st.queue ++ [{ ts := st.current_time_us + 0,
                                  prio := (factory (base + scheduled * interval)).priority,
                                  counter := st.event_counter,
                                  event := factory (base + scheduled * interval) }],
          event_counter := st.event_counter + 1,
          events_scheduled := st.events_scheduled + 1 }
        (by simp only [List.length_append, List.length_singleton]; omega)
      refine ⟨ih1, ?_, ?_⟩
      · intro e he
        rcases ih2 e he with h | h
        · rcases List.mem_append.mp h with h | h
          · exact Or.inl h
          · simp only [List.mem_singleton] at h
            subst h
            exact Or.inr rfl
        · exact Or.inr h
      · rw [ih3]
        simp only [List.length_append, List.length_singleton]
        omega

/-- C10: every event schedule_recurring manages to enqueue is pushed with
queue timestamp equal to the engine's current_time_us at call time (delay
0), independently of interval_us, and the loop runs until the requested
count or, failing that, exactly until schedule_event reports the queue
full: min(count, free capacity) events for an explicit count, fill to
capacity for count None. -/
theorem c10_recurring_zero_delay (st : EngineState) (factory : Nat → TimeEvent)
    (interval_us : Nat) (count : Option Nat) :
    (schedule_recurring st factory interval_us count).current_time_us
      = st.current_time_us ∧
    (∀ e ∈ (schedule_recurring st factory interval_us count).queue,
      e ∈ st.queue ∨ e.ts = st.current_time_us) ∧
    (schedule_recurring st factory interval_us count).queue.length =
      (match count with
       | some n => st.queue.length + min n (st.max_queue_size - st.queue.length)
       | none => max st.queue.length st.max_queue_size) := by
  cases count with
  | some n =>
    obtain ⟨h1, _, h3, h4⟩ :=
      schedule_recurring_counted_spec factory interval_us st.current_time_us n 0 st
    exact ⟨h1, h3, h4⟩
  | none =>
    exact schedule_recurring_unbounded_spec factory interval_us st.current_time_us
      (st.max_queue_size - st.queue.length) 0 st le_rfl

/-! ## C4 amended -/

/-- A nonempty opposite side yields a best price. -/
theorem best_of_nonempty (b : Book) (s : Side)
    (h : (if s = Side.BUY then b.asks else b.bids) ≠ []) :
    (if s = Side.BUY then b.best_ask else b.best_bid) ≠ none := by
  cases s with
  | BUY =>
    rw [if_pos rfl] at h ⊢
    unfold Book.best_ask
    cases hb : b.asks with
    | nil => exact absurd hb h
    | cons x t => simp
  | SELL =>
    rw [if_neg (by decide)] at h ⊢
    unfold Book.best_bid
    cases hg : b.bids.getLast? with
    | none => exact absurd (List.getLast?_eq_none_iff.mp hg) h
    | some y => simp

/-- C4 (amended): for every FOK order, any rejection by match_order is
atomic: the returned book is the input book itself (every field equal,
version included) with no trades and no remaining order. Moreover when the
order survives pre-validation, that is, it has positive size and is either
a MARKET order with a nonempty opposite side or a LIMIT order carrying a
price, a rejection can only be the FOK reject and its reason is FOK not
fully filled; a MARKET FOK with no opposite liquidity is instead rejected
with reason No liquidity (still with the book unchanged), as the
counterexample shows. -/
theorem c4_fok_atomic (o : Order) (b : Book) (ts : Int)
    (hf : o.time_in_force = TimeInForce.FOK) :
    ((match_order o b ts).2.rejected = true →
      (match_order o b ts).1 = b ∧ (match_order o b ts).2.trades = [] ∧
      (match_order o b ts).2.remaining_order = none) ∧
    (0 < o.size → o.order_type = OrderType.LIMIT → (o.price).isSome = true →
      (match_order o b ts).2.rejected = true →
      (match_order o b ts).2.rejection_reason = some "FOK not fully filled") ∧
    (0 < o.size → o.order_type = OrderType.MARKET →
      (if o.side = Side.BUY then b.asks else b.bids) ≠ [] →
      (match_order o b ts).2.rejected = true →
      (match_order o b ts).2.rejection_reason = some "FOK not fully filled") := by
  unfold match_order
  by_cases hsz : o.size ≤ 0
  · rw [if_pos hsz]
    exact ⟨fun _ => ⟨rfl, rfl, rfl⟩,
           fun h0 => absurd h0 (by omega),
           fun h0 => absurd h0 (by omega)⟩
  · rw [if_neg hsz]
    by_cases hM : o.order_type = OrderType.MARKET
    · rw [if_pos hM]
      unfold match_market_order
      by_cases hliq : (if o.side = Side.BUY then b.asks else b.bids) = [] ∨
          (if o.side = Side.BUY then b.best_ask else b.best_bid) = none
      · rw [if_pos hliq]
        refine ⟨fun _ => ⟨rfl, rfl, rfl⟩, ?_, ?_⟩
        · intro _ hL
          rw [hM] at hL
          exact absurd hL (by decide)
        · intro _ _ hne _
          rcases hliq with h | h
          · exact absurd h hne
          · exact absurd h (best_of_nonempty b o.side hne)
      · rw [if_neg hliq]
        rw [hf]
        dsimp only
        split_ifs <;> (refine ⟨?_, ?_, ?_⟩ <;> intros <;> simp_all)
    · rw [if_neg hM]
      by_cases hL : o.order_type = OrderType.LIMIT
      · rw [if_pos hL]
        unfold match_limit_order
        cases hp : o.price with
        | none =>
          refine ⟨fun _ => ⟨rfl, rfl, rfl⟩, ?_, ?_⟩
          · intro _ _ hps _
            exact absurd hps (by decide)
          · intro _ hM2 _ _
            exact absurd hM2 hM
        | some P =>
          rw [hf]
          dsimp only
          split_ifs <;> (refine ⟨?_, ?_, ?_⟩ <;> intros <;> simp_all)
      · rw [if_neg hL]
        refine ⟨fun _ => ⟨rfl, rfl, rfl⟩, ?_, ?_⟩
        · intro _ hL2
          exact absurd hL2 hL
        · intro _ hM2
          exact absurd hM2 hM

/-- C4 witness: scenario S2. On the book holding SELL A1@101 size 1, the
LIMIT BUY size 2 price 101 FOK is rejected with the FOK reason and the book
comes back unchanged with no trades. -/
theorem c4_fok_atomic_witness :
    (match_order c4_limit_fok c4_book 5000).1 = c4_book ∧
    (match_order c4_limit_fok c4_book 5000).2.trades = [] ∧
    (match_order c4_limit_fok c4_book 5000).2.rejection_reason =
      some "FOK not fully filled" := by
  have h := c4_fok_atomic c4_limit_fok c4_book 5000 rfl
  have hrej : (match_order c4_limit_fok c4_book 5000).2.rejected = true := by decide
  obtain ⟨h1, h2, h3⟩ := h.1 hrej
  exact ⟨h1, h2, h.2.1 (by decide) rfl (by decide) hrej⟩

/-! ## C6: dispatch order of the run loop -/

theorem key_le_refl (a : Nat × Nat × Nat) : key_le a a := by
  unfold key_le
  omega

theorem key_lt_le {a b : Nat × Nat × Nat} (h : key_lt a b) : key_le a b := by
  unfold key_lt at h
  unfold key_le
  omega

theorem key_le_trans {a b c : Nat × Nat × Nat} (h1 : key_le a b) (h2 : key_le b c) :
    key_le a c := by
  unfold key_le at h1 h2 ⊢
  omega

theorem key_le_of_not_lt {a b : Nat × Nat × Nat} (h : ¬ key_lt a b) : key_le b a := by
  unfold key_lt at h
  unfold key_le
  omega

theorem key_le_ts {a b : Nat × Nat × Nat} (h : key_le a b) : a.1 ≤ b.1 := by
  unfold key_le at h
  omega

theorem pick_min_mem (e : QEntry) (l : List QEntry) : pick_min e l ∈ e :: l := by
  induction l generalizing e with
  | nil => simp [pick_min]
  | cons x t ih =>
    unfold pick_min
    split_ifs with h
    · exact List.mem_cons_of_mem e (ih x)
    · rcases List.mem_cons.mp (ih e) with h1 | h1
      · exact List.mem_cons.mpr (Or.inl h1)
      · exact List.mem_cons.mpr (Or.inr (List.mem_cons_of_mem x h1))

theorem pick_min_le (e : QEntry) (l : List QEntry) :
    ∀ x ∈ e :: l, key_le (pick_min e l).key x.key := by
  induction l generalizing e with
  | nil =>
    intro x hx
    simp only [List.mem_singleton] at hx
    subst hx
    exact key_le_refl _
  | cons y t ih =>
    intro x hx
    unfold pick_min
    split_ifs with h
    · rcases List.mem_cons.mp hx with h1 | h1
      · rw [h1]
        exact key_le_trans (ih y y (List.mem_cons_self y t)) (key_lt_le h)
      · exact ih y x h1
    · rcases List.mem_cons.mp hx with h1 | h1
      · rw [h1]
        exact ih e e (List.mem_cons_self e t)
      · rcases List.mem_cons.mp h1 with h2 | h2
        · rw [h2]
          exact key_le_trans (ih e e (List.mem_cons_self e t)) (key_le_of_not_lt h)
        · exact ih e x (List.mem_cons_of_mem e h2)

/-- pop_min pops an entry of the queue that is least in
(timestamp, priority, counter) order; the rest is a subset of the queue. -/
theorem pop_min_spec {l : List QEntry} {e : QEntry} {rest : List QEntry}
    (h : pop_min l = some (e, rest)) :
    e ∈ l ∧ (∀ x ∈ l, key_le e.key x.key) ∧ ∀ x ∈ rest, x ∈ l := by
  cases l with
  | nil => simp [pop_min] at h
  | cons a t =>
    simp only [pop_min] at h
    have hinj := Option.some.inj h
    have he2 : pick_min a t = e := congrArg Prod.fst hinj
    have hr2 : (a :: t).erase (pick_min a t) = rest := congrArg Prod.snd hinj
    subst he2
    refine ⟨pick_min_mem a t, pick_min_le a t, ?_⟩
    intro x hx
    rw [← hr2] at hx
    exact List.mem_of_mem_erase hx

/-- schedule_event never moves the clock and keeps every queued entry at or
after the current time when delays are nonnegative. -/
theorem schedule_event_inv {st : EngineState} (ev : TimeEvent) (d : Nat)
    (h : engine_inv st) :
    engine_inv (schedule_event st ev d).2 ∧
    (schedule_event st ev d).2.current_time_us = st.current_time_us := by
  by_cases hc : st.max_queue_size ≤ st.queue.length
  · rw [schedule_event_full ev d hc]
    exact ⟨h, rfl⟩
  · push_neg at hc
    rw [schedule_event_push ev d hc]
    refine ⟨?_, rfl⟩
    intro e he
    rcases List.mem_append.mp he with h1 | h1
    · exact h e h1
    · simp only [List.mem_singleton] at h1
      subst h1
      show st.current_time_us ≤ st.current_time_us + d
      omega

/-- The handler-scheduling fold preserves the queue invariant and the
clock. -/
theorem sched_list_inv (ps : List (TimeEvent × Nat)) :
    ∀ st : EngineState, engine_inv st →
      engine_inv (ps.foldl (fun s p => (schedule_event s p.1 p.2).2) st) ∧
      (ps.foldl (fun s p => (schedule_event s p.1 p.2).2) st).current_time_us
        = st.current_time_us := by
  induction ps with
  | nil => exact fun st h => ⟨h, rfl⟩
  | cons p t ih =>
    intro st h
    have h1 := schedule_event_inv p.1 p.2 h
    have h2 := ih _ h1.1
    exact ⟨h2.1, h2.2.trans h1.2⟩

/-- C6 (amended): for every handler behaviour and every engine state whose
queued entries all lie at or after the current time (delays are
nonnegative), the virtual clock never decreases along the run: the current
time followed by the timestamps of the dispatched events is a
non-decreasing chain, each dispatched event being a minimal-key entry of
the queue at its pop. The dispatched keys are however not strictly
increasing as full (timestamp, priority, counter) triples once handlers
schedule events during the run, as the counterexample shows. -/
theorem c6_run_time_monotone (handler_sched : TimeEvent → List (TimeEvent × Nat)) :
    ∀ (fuel : Nat) (st : EngineState), engine_inv st →
      List.Chain' (· ≤ ·)
        (st.current_time_us ::
          ((run_steps handler_sched fuel st).1.map (fun k => k.1))) := by
  intro fuel
  induction fuel with
  | zero =>
    intro st h
    simp [run_steps]
  | succ fuel ih =>
    intro st h
    cases hp : pop_min st.queue with
    | none =>
      rw [run_steps, hp]
      simp
    | some pr =>
      obtain ⟨e, rest⟩ := pr
      obtain ⟨hmem, hmin, hsub⟩ := pop_min_spec hp
      rw [run_steps, hp]
      dsimp only
      rw [List.map_cons, List.chain'_cons]
      have hinv1 : engine_inv
          { st with queue := rest, current_time_us := e.ts,
                    events_processed := st.events_processed + 1 } := by
        intro x hx
        exact key_le_ts (hmin x (hsub x hx))
      have hsched := sched_list_inv (handler_sched e.event) _ hinv1
      have hchain := ih _ hsched.1
      rw [hsched.2] at hchain
      exact ⟨h e hmem, hchain⟩

/-- C6 counterexample: one priority-3 event at time 10 whose handler
schedules a priority-2 event at the same time (delay 0). The run dispatches
key (10,3,0) and then key (10,2,1), and the second key is lexicographically
smaller than the first, so the dispatched keys are not strictly
increasing. -/
theorem c6_strict_key_order_counterexample :
    (run_steps c6_handler 3 c6_state).1 = [(10, 3, 0), (10, 2, 1)] ∧
    key_lt (10, 2, 1) (10, 3, 0) := by
  decide

/-- C6 witness: the amended theorem applied to that same run. -/
theorem c6_run_time_monotone_witness :
    List.Chain' (· ≤ ·)
      (c6_state.current_time_us ::
        ((run_steps c6_handler 3 c6_state).1.map (fun k => k.1))) :=
  c6_run_time_monotone c6_handler 3 c6_state
    (by unfold engine_inv; decide)

/-! ## C2: the level-size bookkeeping invariant -/

/-- Every level of a level list satisfies level_ok. -/
def levels_ok (l : List (ℤ × PriceLevel)) : Prop :=
  ∀ q L, (q, L) ∈ l → level_ok L

theorem sd_insert_mem {α : Type} {p : ℤ} {v : α} {l : List (ℤ × α)} {x : ℤ × α}
    (hx : x ∈ sd_insert p v l) : x = (p, v) ∨ x ∈ l := by
  induction l with
  | nil =>
    unfold sd_insert at hx
    simp only [List.mem_singleton] at hx
    exact Or.inl hx
  | cons y t ih =>
    unfold sd_insert at hx
    split_ifs at hx with h1 h2
    · rcases List.mem_cons.mp hx with h | h
      · exact Or.inl h
      · exact Or.inr h
    · rcases List.mem_cons.mp hx with h | h
      · exact Or.inl h
      · exact Or.inr (List.mem_cons_of_mem y h)
    · rcases List.mem_cons.mp hx with h | h
      · exact Or.inr (h ▸ List.mem_cons_self y t)
      · rcases ih h with h3 | h3
        · exact Or.inl h3
        · exact Or.inr (List.mem_cons_of_mem y h3)

theorem sd_erase_mem {α : Type} {p : ℤ} {l : List (ℤ × α)} {x : ℤ × α}
    (hx : x ∈ sd_erase p l) : x ∈ l := by
  induction l with
  | nil =>
    unfold sd_erase at hx
    exact hx
  | cons y t ih =>
    unfold sd_erase at hx
    split_ifs at hx with h1
    · exact List.mem_cons_of_mem y hx
    · rcases List.mem_cons.mp hx with h | h
      · exact h ▸ List.mem_cons_self y t
      · exact List.mem_cons_of_mem y (ih h)

theorem sd_get_mem {α : Type} {p : ℤ} {v : α} {l : List (ℤ × α)}
    (h : sd_get p l = some v) : (p, v) ∈ l := by
  induction l with
  | nil => simp [sd_get] at h
  | cons y t ih =>
    obtain ⟨q, w⟩ := y
    unfold sd_get at h
    split_ifs at h with h1
    · have hv := Option.some.inj h
      subst hv
      subst h1
      exact List.mem_cons_self _ t
    · exact List.mem_cons_of_mem _ (ih h)

theorem level_ok_add {L : PriceLevel} {o : Order} (h : level_ok L) :
    level_ok (L.add_order o) := by
  unfold level_ok PriceLevel.add_order at *
  simp [h]

theorem level_ok_remove {L : PriceLevel} {oid : String} {L2 : PriceLevel}
    (h : (L.remove_order oid).1 = some L2) : level_ok L2 := by
  unfold PriceLevel.remove_order at h
  dsimp only at h
  split_ifs at h with h1
  cases h
  rfl

theorem level_ok_singleton (p : ℤ) (o : Order) :
    level_ok { price := p, orders := [o], total_size := o.size } := by
  simp [level_ok]

theorem levels_ok_insert {l : List (ℤ × PriceLevel)} {p : ℤ} {nl : PriceLevel}
    (hok : levels_ok l) (hnl : level_ok nl) : levels_ok (sd_insert p nl l) := by
  intro q L h
  rcases sd_insert_mem h with h | h
  · cases h
    exact hnl
  · exact hok q L h

theorem levels_ok_erase {l : List (ℤ × PriceLevel)} {p : ℤ}
    (hok : levels_ok l) : levels_ok (sd_erase p l) := by
  intro q L h
  exact hok q L (sd_erase_mem h)

/-- book_ok split into the two sides. -/
theorem book_ok_iff (b : Book) : book_ok b ↔ levels_ok b.bids ∧ levels_ok b.asks := by
  constructor
  · intro h
    exact ⟨fun q L hq => h q L (Or.inl hq), fun q L hq => h q L (Or.inr hq)⟩
  · intro h q L hq
    rcases hq with hq | hq
    · exact h.1 q L hq
    · exact h.2 q L hq

theorem book_ok_empty : book_ok empty_book := by
  intro p L h
  rcases h with h | h <;> simp [empty_book] at h

/-- The level list produced by the insertion branch of add_order. -/
theorem levels_ok_add_branch {l : List (ℤ × PriceLevel)} (hok : levels_ok l)
    (p : ℤ) (no : Order) :
    levels_ok (match sd_get p l with
               | some L => sd_insert p (L.add_order no) l
               | none => sd_insert p { price := p, orders := [no],
                                       total_size := no.size } l) := by
  cases hg : sd_get p l with
  | some L => exact levels_ok_insert hok (level_ok_add (hok p L (sd_get_mem hg)))
  | none => exact levels_ok_insert hok (level_ok_singleton p no)

theorem book_ok_add {b : Book} {o : Order} {b2 : Book} (hok : book_ok b)
    (h : b.add_order o = some b2) : book_ok b2 := by
  unfold Book.add_order at h
  split_ifs at h with hst hside
  · cases hp : o.price with
    | none =>
      rw [hp] at h
      exact absurd h (by simp)
    | some p =>
      rw [hp] at h
      dsimp only at h
      have hb2 := Option.some.inj h
      subst hb2
      rw [book_ok_iff] at hok
      rw [book_ok_iff]
      exact ⟨levels_ok_add_branch hok.1 p _, hok.2⟩
  · cases hp : o.price with
    | none =>
      rw [hp] at h
      exact absurd h (by simp)
    | some p =>
      rw [hp] at h
      dsimp only at h
      have hb2 := Option.some.inj h
      subst hb2
      rw [book_ok_iff] at hok
      rw [book_ok_iff]
      exact ⟨hok.1, levels_ok_add_branch hok.2 p _⟩

/-- The level list produced by the removal branch of remove_order. -/
theorem levels_ok_remove_branch {l : List (ℤ × PriceLevel)} (hok : levels_ok l)
    (oid : String) (op : Option ℤ) :
    levels_ok (match op with
               | none => l
               | some p =>
                 match sd_get p l with
                 | none => l
                 | some L =>
                   match (L.remove_order oid).1 with
                   | none => sd_erase p l
                   | some L2 => sd_insert p L2 l) := by
  cases op with
  | none => exact hok
  | some p =>
    dsimp only
    cases sd_get p l with
    | none => exact hok
    | some L =>
      dsimp only
      cases hr : (L.remove_order oid).1 with
      | none => exact levels_ok_erase hok
      | some L2 => exact levels_ok_insert hok (level_ok_remove hr)

theorem book_ok_remove {b : Book} (hok : book_ok b) (oid : String) :
    book_ok (b.remove_order oid).1 := by
  unfold Book.remove_order
  cases hd : dict_get oid b.orders with
  | none => exact hok
  | some o =>
    dsimp only
    rw [book_ok_iff] at hok
    by_cases hs : o.side = Side.BUY
    · rw [if_pos hs, if_pos hs]
      rw [book_ok_iff]
      exact ⟨levels_ok_remove_branch hok.1 oid o.price, hok.2⟩
    · rw [if_neg hs, if_neg hs]
      rw [book_ok_iff]
      exact ⟨hok.1, levels_ok_remove_branch hok.2 oid o.price⟩

theorem book_ok_update {b : Book} (hok : book_ok b) (oid : String)
    (f : ℤ) (s : OrderStatus) : book_ok (b.update_order oid f s) := by
  unfold Book.update_order
  cases hd : dict_get oid b.orders with
  | none => exact hok
  | some o =>
    dsimp only
    split_ifs with h1 h2
    · cases ha : ((b.remove_order oid).1).add_order
        { o with filled_size := f, status := s, size := o.size - f } with
      | none => exact book_ok_remove hok oid
      | some b3 => exact book_ok_add (book_ok_remove hok oid) ha
    · exact book_ok_remove hok oid
    · exact book_ok_remove hok oid

theorem book_ok_record {b : Book} (hok : book_ok b) (t : Trade) :
    book_ok (b.record_trade t) := by
  intro p L h
  exact hok p L h

theorem consume_passives_ok (agg : Order) (price : ℤ) (ts : Int) :
    ∀ (passives : List Order) (st : MatchState), book_ok st.book →
      book_ok (consume_passives agg price ts passives st).book := by
  intro passives
  induction passives with
  | nil => exact fun st h => h
  | cons pO t ih =>
    intro st h
    unfold consume_passives at ih ⊢
    rw [List.foldl_cons]
    apply ih
    dsimp only
    split_ifs with hr <;>
      first
        | exact h
        | exact book_ok_record (book_ok_update h _ _ _) _

theorem walk_prices_ok (agg : Order) (ts : Int) :
    ∀ (prices : List ℤ) (st : MatchState), book_ok st.book →
      book_ok (walk_prices agg ts prices st).book := by
  intro prices
  induction prices with
  | nil => exact fun st h => h
  | cons p t ih =>
    intro st h
    unfold walk_prices at ih ⊢
    rw [List.foldl_cons]
    apply ih
    dsimp only
    split_ifs with hr hs
    · exact h
    · cases sd_get p st.book.asks with
      | none => exact h
      | some level => exact consume_passives_ok agg p ts level.orders st h
    · cases sd_get p st.book.bids with
      | none => exact h
      | some level => exact consume_passives_ok agg p ts level.orders st h

theorem walk_levels_ok (agg : Order) (ts : Int) :
    ∀ (levels : List (ℤ × PriceLevel)) (st : MatchState), book_ok st.book →
      book_ok (walk_levels agg ts levels st).book := by
  intro levels
  induction levels with
  | nil => exact fun st h => h
  | cons pl t ih =>
    intro st h
    unfold walk_levels at ih ⊢
    rw [List.foldl_cons]
    apply ih
    dsimp only
    split_ifs with hr
    · exact h
    · exact consume_passives_ok agg pl.1 ts pl.2.orders st h

theorem match_market_order_ok {o : Order} {b : Book} {ts : Int}
    (hok : book_ok b) : book_ok (match_market_order o b ts).1 := by
  unfold match_market_order
  dsimp only
  split_ifs <;>
    first
      | exact hok
      | exact walk_prices_ok o ts _ _ hok

theorem book_ok_add_getD {b : Book} (hok : book_ok b) (o : Order) :
    book_ok ((b.add_order o).getD b) := by
  cases ha : b.add_order o with
  | none => exact hok
  | some b3 => exact book_ok_add hok ha

theorem match_limit_order_ok {o : Order} {b : Book} {ts : Int}
    (hok : book_ok b) : book_ok (match_limit_order o b ts).1 := by
  unfold match_limit_order
  cases hp : o.price with
  | none => exact hok
  | some limit_price =>
    dsimp only
    split_ifs <;>
      first
        | exact hok
        | exact walk_levels_ok o ts _ _ hok
        | exact book_ok_add_getD (walk_levels_ok o ts _ _ hok) _
        | exact book_ok_add_getD hok _

theorem match_order_ok {o : Order} {b : Book} {ts : Int}
    (hok : book_ok b) : book_ok (match_order o b ts).1 := by
  unfold match_order
  split_ifs with h1 h2 h3
  · exact hok
  · exact match_market_order_ok hok
  · exact match_limit_order_ok hok
  · exact hok

/-- C2 counterexample: add B1 (size 2) to the empty book, then apply
update_order with filled_size 1 and status PARTIALLY_FILLED, both public
book operations. The stored copy has size 1 (the remaining quantity) and
filled_size 1, so the level total 1 differs from the claimed
sum of size - filled_size, which is 0. -/
theorem c2_total_size_counterexample :
    Reachable c2_bad_book ∧
    (c2_bad_book.bids.map (fun pl =>
      (pl.2.total_size, (pl.2.orders.map (fun o => o.size - o.filled_size)).sum)))
      = [(1, 0)] ∧
    (1 : ℤ) ≠ 0 := by
  refine ⟨?_, by decide, by decide⟩
  have h1 : empty_book.add_order order_B1 = some c2_add_book := by decide
  exact Reachable.update (Reachable.add Reachable.empty h1)

/-- C2 (amended): in every book reachable from the empty book through
add_order, remove_order, update_order, record_trade and match_order, every
price level's total_size equals the sum of the size fields of its
contained orders; the stored size of a resting order is its remaining
quantity, so this is the remaining open size of the level. It does not in
general equal the sum of size - filled_size over the stored copies, which
the counterexample refutes. -/
theorem c2_level_total_size (b : Book) (h : Reachable b) :
    ∀ p L, ((p, L) ∈ b.bids ∨ (p, L) ∈ b.asks) →
      L.total_size = (L.orders.map Order.size).sum := by
  induction h with
  | empty => exact book_ok_empty
  | add _ h2 ih => exact book_ok_add ih h2
  | remove _ ih => exact book_ok_remove ih _
  | update _ ih => exact book_ok_update ih _ _ _
  | record _ ih => exact book_ok_record ih _
  | matched _ ih => exact match_order_ok ih

/-- C2 witness: the amended theorem applied to the book that scenario S1
reaches through two match_order calls, at its single bid level. -/
theorem c2_level_total_size_witness :
    ((100, s1_level) ∈ s1_book2.bids ∨ (100, s1_level) ∈ s1_book2.asks) ∧
    s1_level.total_size = (s1_level.orders.map Order.size).sum :=
  ⟨Or.inl (by decide),
   c2_level_total_size s1_book2
     (Reachable.matched (Reachable.matched Reachable.empty)) 100 s1_level
     (Or.inl (by decide))⟩

end Marksim
